import Mathlib

/-!
# Opengist user repository (`internal/models/user.go`)

A shallow embedding of the user model of the gist-sharing application: the
relational store it talks to (tables `users`, `gists`, `ssh_keys`, `likes`),
the statements the query builder issues, and the functions of `user.go`
(`BeforeDelete`, `UserExists`, `GetAllUsers`, `GetUserByUsername`,
`GetUserById`, `Create`, `Delete`, `HasLiked`).

Conventions of the embedding:

* a table is the list of its rows, in storage order;
* a Go `error` result is an `Option StoreError` (`none` is `nil`);
* every statement sent to the store takes an explicit outcome argument
  `fault : Option StoreError`: `some e` means the store rejected the statement
  with `e` (connectivity, malformed query), `none` means the store executed it;
* Go `int` is the 64-bit two's-complement integer (`wrapInt64`);
* SQL integer columns hold mathematical integers (`Int`): the expression
  `nb_likes - 1` is evaluated by the store, not by Go.
-/

namespace Opengist

/-! ## Data model -/

/-- Errors surfaced to the caller of the repository. -/
inductive StoreError where
  | notFound
  | conflict
  | failure (msg : String)
deriving DecidableEq, Repr

deriving instance DecidableEq for Except

/-- The columns of a row of table `users` (struct `User`, lines 7-19; the
fields `Gists`, `SSHKeys` and `Liked` are relations, held by the other
tables). -/
structure User where
  ID : Nat
  Username : String
  Password : String
  IsAdmin : Bool
  CreatedAt : Int
  Email : String
  MD5Hash : String
deriving DecidableEq, Repr

/-- Modelled from the spec: the row type of table `gists`, declared by the
gist module which is not part of this fragment:
`gists(id, user_id, forked_id, nb_likes, nb_forks, updated_at, …)`.
`forked_id` is `none` for a gist that is not a fork; `rest` stands for the
remaining columns. -/
structure Gist where
  id : Nat
  user_id : Nat
  forked_id : Option Nat
  nb_likes : Int
  nb_forks : Int
  updated_at : Int
  rest : String
deriving DecidableEq, Repr

/-- Modelled from the spec: a row of table `ssh_keys(id, user_id, …)`. -/
structure SSHKey where
  id : Nat
  user_id : Nat
  rest : String
deriving DecidableEq, Repr

/-- A row of the join table `likes(user_id, gist_id)` of the many-to-many
relation `Liked` (line 18). -/
structure Like where
  user_id : Nat
  gist_id : Nat
deriving DecidableEq, Repr

/-- The contents of the relational store. -/
structure Store where
  users : List User
  gists : List Gist
  ssh_keys : List SSHKey
  likes : List Like
deriving DecidableEq, Repr

/-! ## Schema constraints -/

/-- Primary key of `users` (`gorm:"primaryKey"` on `ID`). -/
def Store.usersPK (s : Store) : Prop := (s.users.map (fun u => u.ID)).Nodup

/-- Primary key of `gists`. -/
def Store.gistsPK (s : Store) : Prop := (s.gists.map (fun g => g.id)).Nodup

/-- Primary key of the join table `likes`: the pair of its two columns. -/
def Store.likesPK (s : Store) : Prop := s.likes.Nodup

/-- Foreign key `likes.user_id -> users.id` of the join table. -/
def Store.likesFK (s : Store) : Prop :=
  ∀ l ∈ s.likes, ∃ u ∈ s.users, u.ID = l.user_id

instance (s : Store) : Decidable s.usersPK := by unfold Store.usersPK; infer_instance
instance (s : Store) : Decidable s.gistsPK := by unfold Store.gistsPK; infer_instance
instance (s : Store) : Decidable s.likesPK := by unfold Store.likesPK; infer_instance
instance (s : Store) : Decidable s.likesFK := by unfold Store.likesFK; infer_instance

/-! ## Statements of the delete path -/

/-- Sub-select `SELECT gist_id FROM likes WHERE user_id = ?` (lines 26-30). -/
def selectGistIdFromLikes (s : Store) (userId : Nat) : List Nat :=
  (s.likes.filter (fun l => l.user_id = userId)).map (fun l => l.gist_id)

/-- Sub-select `SELECT forked_id FROM gists WHERE user_id = ?` (lines 40-44).
A `NULL` in the result is `none`. -/
def selectForkedIdFromGists (s : Store) (userId : Nat) : List (Option Nat) :=
  (s.gists.filter (fun g => g.user_id = userId)).map (fun g => g.forked_id)

/-- Statement `UPDATE gists SET nb_likes = nb_likes - 1 WHERE id IN (ids)`:
`Model(&Gist{}).Omit("updated_at").Where("id IN (?)", ...).UpdateColumn("nb_likes", "nb_likes - 1")`.
`UpdateColumn` writes the named column only; a row is updated once, however
often its id occurs in `ids`. -/
def updateNbLikes (ids : List Nat) (gists : List Gist) : List Gist :=
  gists.map (fun g => if g.id ∈ ids then { g with nb_likes := g.nb_likes - 1 } else g)

/-- Statement `UPDATE gists SET nb_forks = nb_forks - 1 WHERE id IN (ids)`; `id IN (...)`
is never true through a `NULL` of the list. -/
def updateNbForks (ids : List (Option Nat)) (gists : List Gist) : List Gist :=
  gists.map (fun g => if some g.id ∈ ids then { g with nb_forks := g.nb_forks - 1 } else g)

/-- The statements `Delete` sends to the store. -/
inductive Stmt where
  | decrementLikes (userId : Nat)
  | decrementForks (userId : Nat)
  | deleteUser (userId : Nat)
deriving DecidableEq, Repr

/-- The user owns no row of `ssh_keys`. -/
def Store.ownsNoKey (s : Store) (userId : Nat) : Prop :=
  ∀ k ∈ s.ssh_keys, k.user_id ≠ userId

instance (s : Store) (userId : Nat) : Decidable (s.ownsNoKey userId) := by
  unfold Store.ownsNoKey; infer_instance

/-- Rows removed by `DELETE FROM users WHERE id = ?` through the constraints
`OnDelete:CASCADE` declared on `Gists` (line 16) and on the join table of
`Liked` (line 18): the user's row, the gists the user owns, and every `likes`
row that references the user or one of the removed gists (the gist side of
the join table, "the store's cascading constraints remove dependent Gists ...
and like-associations"). Table `ssh_keys` is not written: `SSHKeys` (line 17)
declares the foreign key without a delete rule. -/
def cascadeDeleteUser (userId : Nat) (s : Store) : Store :=
  let gone : List Nat := (s.gists.filter (fun g => g.user_id = userId)).map (fun g => g.id)
  { users := s.users.filter (fun u => u.ID ≠ userId)
    gists := s.gists.filter (fun g => g.user_id ≠ userId)
    ssh_keys := s.ssh_keys
    likes := s.likes.filter (fun l => l.user_id ≠ userId ∧ l.gist_id ∉ gone) }

/-- Statement `DELETE FROM users WHERE id = ?`: the foreign key of `ssh_keys`
on `users` has no delete rule (line 17), so the store refuses the statement
while a row of `ssh_keys` references the user; otherwise the cascade runs. -/
def deleteUserRow (userId : Nat) (s : Store) : Except StoreError Store :=
  if s.ssh_keys.any (fun k => k.user_id = userId) then
    .error (.failure "FOREIGN KEY constraint failed")
  else
    .ok (cascadeDeleteUser userId s)

/-- What a statement does to the store when the store executes it: the new
contents, or the error of a constraint the statement violates. -/
def Stmt.run : Stmt → Store → Except StoreError Store
  | .decrementLikes userId, s =>
      .ok { s with gists := updateNbLikes (selectGistIdFromLikes s userId) s.gists }
  | .decrementForks userId, s =>
      .ok { s with gists := updateNbForks (selectForkedIdFromGists s userId) s.gists }
  | .deleteUser userId, s => deleteUserRow userId s

/-- A database handle (`db`, or the transaction `tx` handed to a hook): the
store contents it sees and the statements issued through it so far. -/
structure Conn where
  store : Store
  issued : List Stmt
deriving DecidableEq, Repr

/-- Send one statement: it is recorded as issued; the store either executes
it or rejects it with an error (the given fault, or a violated constraint),
leaving the contents alone. -/
def Conn.exec (fault : Option StoreError) (st : Stmt) (c : Conn) : Conn × Option StoreError :=
  match fault with
  | some e => ({ c with issued := c.issued ++ [st] }, some e)
  | none =>
    match st.run c.store with
    | .ok s => ({ store := s, issued := c.issued ++ [st] }, none)
    | .error e => ({ c with issued := c.issued ++ [st] }, some e)

/-- Hook `func (user *User) BeforeDelete(tx *gorm.DB) error` (lines 21-47).
`f1` and `f2` are the outcomes of the first and the second update. -/
def BeforeDelete (user : User) (f1 f2 : Option StoreError) (tx : Conn) :
    Conn × Option StoreError :=
  match tx.exec f1 (.decrementLikes user.ID) with
  | (tx1, some err) => (tx1, some err)
  | (tx1, none) => tx1.exec f2 (.decrementForks user.ID)

/-- Modelled from the spec: the mapper's dispatch of `db.Delete(&user)`, which
"MUST invoke the pre-delete counter-maintenance procedure transactionally
before removing the row": the hook and the `DELETE` run in one transaction,
which is rolled back to the contents at its start when either returns an
error. `f3` is the outcome of the `DELETE` itself. -/
def dbDelete (hook : Conn → Conn × Option StoreError) (f3 : Option StoreError)
    (userId : Nat) (db : Conn) : Conn × Option StoreError :=
  match hook db with
  | (tx, some err) => ({ tx with store := db.store }, some err)
  | (tx, none) =>
    match tx.exec f3 (.deleteUser userId) with
    | (tx2, some err) => ({ tx2 with store := db.store }, some err)
    | (tx2, none) => (tx2, none)

/-- Method `func (user *User) Delete() error` (lines 101-103): `db.Delete(&user)`,
with `BeforeDelete` as the registered pre-delete hook. -/
def Delete (user : User) (f1 f2 f3 : Option StoreError) (db : Conn) :
    Conn × Option StoreError :=
  dbDelete (BeforeDelete user f1 f2) f3 user.ID db

/-! ## Queries -/

/-- Go `int` arithmetic: the 64-bit two's-complement value of an integer. -/
def wrapInt64 (x : Int) : Int := (x + 2 ^ 63) % 2 ^ 64 - 2 ^ 63

/-- Clause `ORDER BY id asc`. -/
def orderByIdAsc (users : List User) : List User :=
  users.insertionSort (fun a b => a.ID ≤ b.ID)

/-- Clauses `LIMIT limit OFFSET offset` as the query builder renders them: the
`OFFSET` clause is written only for a positive offset. -/
def limitOffset {α : Type} (limit : Nat) (offset : Int) (rows : List α) : List α :=
  (if offset > 0 then rows.drop offset.toNat else rows).take limit

/-- Some suffix of the text, the whole text and the empty one included,
satisfies `f`: what is left after `%` has consumed a run of characters. -/
def anySuffix (f : List Char → Bool) : List Char → Bool
  | [] => f []
  | c :: rest => f (c :: rest) || anySuffix f rest

/-- Operator `text LIKE pattern` of the store, pattern first: `%` matches any
run of characters, `_` matches any one character, every other pattern
character matches itself up to ASCII letter case. -/
def likeMatch : List Char → List Char → Bool
  | [], s => s.isEmpty
  | a :: p, s =>
    if a = '%' then anySuffix (likeMatch p) s
    else
      match s with
      | [] => false
      | c :: rest => (a = '_' || a.toLower = c.toLower) && likeMatch p rest

/-- Condition `username like ?` on one row. -/
def usernameLike (pattern : String) (u : User) : Bool :=
  likeMatch pattern.data u.Username.data

/-- Function `UserExists(username string) (bool, error)` (lines 49-53):
`count` stays 0 when the query fails. -/
def UserExists (fault : Option StoreError) (username : String) (s : Store) :
    Bool × Option StoreError :=
  match fault with
  | some err => (decide ((0 : Nat) > 0), some err)
  | none => (decide ((s.users.filter (usernameLike username)).length > 0), none)

/-- Function `GetAllUsers(offset int) ([]*User, error)` (lines 55-64). -/
def GetAllUsers (fault : Option StoreError) (offset : Int) (s : Store) :
    List User × Option StoreError :=
  match fault with
  | some err => ([], some err)
  | none => (limitOffset 11 (wrapInt64 (offset * 10)) (orderByIdAsc s.users), none)

/-- Finisher `First(&user)`: the matching row of least primary key, or the
not-found error. -/
def first (rows : List User) : Except StoreError User :=
  match (orderByIdAsc rows).head? with
  | some u => .ok u
  | none => .error .notFound

/-- Function `GetUserByUsername(username string) (*User, error)` (lines 66-72). -/
def GetUserByUsername (fault : Option StoreError) (username : String) (s : Store) :
    Except StoreError User :=
  match fault with
  | some err => .error err
  | none => first (s.users.filter (usernameLike username))

/-- Function `GetUserById(userId uint) (*User, error)` (lines 74-80). -/
def GetUserById (fault : Option StoreError) (userId : Nat) (s : Store) :
    Except StoreError User :=
  match fault with
  | some err => .error err
  | none => first (s.users.filter (fun u => u.ID = userId))

/-- Primary key given to a row inserted without one: one more than the
largest key in the table. -/
def nextUserId (s : Store) : Nat := (s.users.map (fun u => u.ID)).foldr max 0 + 1

/-- The row `db.Create(&user)` inserts: the mapper fills a zero `ID` with the
generated key and a zero `CreatedAt` with the current time `now`. -/
def createdRow (now : Int) (user : User) (s : Store) : User :=
  { user with
    ID := if user.ID = 0 then nextUserId s else user.ID
    CreatedAt := if user.CreatedAt = 0 then now else user.CreatedAt }

/-- Method `func (user *User) Create() error` (lines 93-95): `db.Create(&user)`.
The inserted row is written back to the caller's record (the first component
of the result); the insert is refused with a conflict when the primary key or
the unique index on `username` is already taken. -/
def Create (now : Int) (fault : Option StoreError) (user : User) (s : Store) :
    Except StoreError (User × Store) :=
  match fault with
  | some err => .error err
  | none =>
    if s.users.any (fun u => u.ID = (createdRow now user s).ID ||
        u.Username = (createdRow now user s).Username) then
      .error .conflict
    else
      .ok (createdRow now user s, { s with users := s.users ++ [createdRow now user s] })

/-- Count query of the association `Likes` of a gist, restricted by
`Where("user_id = ?", userId)`: the users joined to the gist through `likes`,
`SELECT count(*) FROM users JOIN likes ON likes.gist_id = ? AND
likes.user_id = users.id WHERE user_id = ?`. -/
def countLikes (s : Store) (gistId userId : Nat) : Nat :=
  (s.users.map (fun u =>
    (s.likes.filter (fun l =>
      l.gist_id = gistId ∧ l.user_id = u.ID ∧ l.user_id = userId)).length)).sum

/-- Method `func (user *User) HasLiked(gist *Gist) (bool, error)` (lines
109-119). `assocErr` is `association.Error` after `Association("Likes")`;
`fault` is the outcome of the count query, whose error the method does not
read: `Count()` returns 0 on failure. -/
def HasLiked (user : User) (gist : Gist) (assocErr fault : Option StoreError) (s : Store) :
    Bool × Option StoreError :=
  match assocErr with
  | some err => (false, some err)
  | none =>
    let count : Nat :=
      match fault with
      | some _ => 0
      | none => countLikes s gist.id user.ID
    if count = 0 then (false, none) else (true, none)

/-- Modelled from the spec: recording a like ("a like-association exists
between the two") adds the row `(user_id, gist_id)` to the join table; the
operation itself belongs to the gist module. -/
def recordLike (user : User) (gist : Gist) (s : Store) : Store :=
  { s with likes := s.likes ++ [{ user_id := user.ID, gist_id := gist.id }] }

/-! ## Vocabulary of the statements -/

/-- Two strings are equal up to ASCII letter case. -/
def eqFold (a b : String) : Prop := a.data.map Char.toLower = b.data.map Char.toLower

instance (a b : String) : Decidable (eqFold a b) := by unfold eqFold; infer_instance

/-- The string holds no wildcard of `LIKE`. -/
def noWildcard (a : String) : Prop := '%' ∉ a.data ∧ '_' ∉ a.data

instance (a : String) : Decidable (noWildcard a) := by unfold noWildcard; infer_instance

/-- The likes counter of every gist is the number of `likes` rows for it. -/
def Store.likesInSync (s : Store) : Prop :=
  ∀ g ∈ s.gists, g.nb_likes = ((s.likes.filter (fun l => l.gist_id = g.id)).length : Int)

/-- The forks counter of every gist is the number of gists forked from it. -/
def Store.forksInSync (s : Store) : Prop :=
  ∀ g ∈ s.gists, g.nb_forks = ((s.gists.filter (fun f => f.forked_id = some g.id)).length : Int)

instance (s : Store) : Decidable s.likesInSync := by unfold Store.likesInSync; infer_instance
instance (s : Store) : Decidable s.forksInSync := by unfold Store.forksInSync; infer_instance

/-- The user owns at most one fork of any one gist. -/
def Store.forksOncePerParent (s : Store) (userId : Nat) : Prop :=
  ∀ g ∈ s.gists,
    (s.gists.filter (fun f => f.user_id = userId ∧ f.forked_id = some g.id)).length ≤ 1

instance (s : Store) (userId : Nat) : Decidable (s.forksOncePerParent userId) := by
  unfold Store.forksOncePerParent; infer_instance

/-- The row a gist becomes through the two updates of the hook, given the
results `L` and `F` of their sub-selects. -/
def decrementRow (L : List Nat) (F : List (Option Nat)) (g : Gist) : Gist :=
  { g with
    nb_likes := if g.id ∈ L then g.nb_likes - 1 else g.nb_likes
    nb_forks := if some g.id ∈ F then g.nb_forks - 1 else g.nb_forks }

/-- Example store: user 1 owns two forks (gists 2 and 3) of gist 1, which
belongs to user 2; every counter is in sync. -/
def twoForksStore : Store :=
  { users := [⟨1, "u", "", false, 0, "", ""⟩, ⟨2, "v", "", false, 0, "", ""⟩]
    gists := [⟨1, 2, none, 0, 2, 0, ""⟩, ⟨2, 1, some 1, 0, 0, 0, ""⟩, ⟨3, 1, some 1, 0, 0, 0, ""⟩]
    ssh_keys := []
    likes := [] }

/-- Example store: user 1 has liked gist 1 of user 2 and owns gist 2, a fork
of gist 1; every counter is in sync. -/
def likeAndForkStore : Store :=
  { users := [⟨1, "u", "", false, 0, "", ""⟩, ⟨2, "v", "", false, 0, "", ""⟩]
    gists := [⟨1, 2, none, 1, 1, 0, ""⟩, ⟨2, 1, some 1, 0, 0, 0, ""⟩]
    ssh_keys := [⟨1, 1, ""⟩]
    likes := [⟨1, 1⟩] }

/-- The order of `ORDER BY id asc` is total. -/
instance userIdLe_total : IsTotal User (fun a b => a.ID ≤ b.ID) :=
  ⟨fun a b => Nat.le_total a.ID b.ID⟩

/-- The order of `ORDER BY id asc` is transitive. -/
instance userIdLe_trans : IsTrans User (fun a b => a.ID ≤ b.ID) :=
  ⟨fun _ _ _ h1 h2 => Nat.le_trans h1 h2⟩

/-- What a caller renders of page `k`: the page without its eleventh row. -/
def pageRows (k : Nat) (s : Store) : List User :=
  (GetAllUsers none (k : Int) s).1.take 10

/-- A user row with the given key and name. -/
def userRow (id : Nat) (name : String) : User :=
  { ID := id, Username := name, Password := "", IsAdmin := false, CreatedAt := 0,
    Email := "", MD5Hash := "" }

/-- A store whose only rows are the given users. -/
def usersOnly (users : List User) : Store :=
  { users := users, gists := [], ssh_keys := [], likes := [] }

/-- Example store: five users, keys 1 to 5, stored out of order. -/
def fiveUsers : Store :=
  usersOnly [userRow 3 "c", userRow 1 "a", userRow 5 "e", userRow 2 "b", userRow 4 "d"]

/-- Example store: one user. -/
def oneUser : Store := usersOnly [userRow 1 "a"]

/-- Example store: twelve users, keys 1 to 12. -/
def twelveUsers : Store :=
  usersOnly ((List.range 12).map (fun i => userRow (i + 1) ""))

/-- Example store: one user, `bob`. -/
def bobStore : Store := usersOnly [userRow 1 "bob"]

/-- Example store: one user, `Alice`. -/
def aliceStore : Store := usersOnly [userRow 1 "Alice"]

/-- Example store: as `likeAndForkStore`, the SSH key belonging to user 2. -/
def keyOfOtherStore : Store :=
  { likeAndForkStore with ssh_keys := [⟨1, 2, ""⟩] }

/-- A gist row with both counters blanked: what is left is every column the
counter updates must not write. -/
def Gist.withoutCounters (g : Gist) : Gist := { g with nb_likes := 0, nb_forks := 0 }

/-! ## The pre-delete hook -/

theorem updateNbLikes_user_id (ids : List Nat) (gs : List Gist) :
    (updateNbLikes ids gs).map (fun g => (g.id, g.user_id, g.forked_id)) =
      gs.map (fun g => (g.id, g.user_id, g.forked_id)) := by
  unfold updateNbLikes
  rw [List.map_map]
  apply List.map_congr_left
  intro g _
  by_cases h : g.id ∈ ids <;> simp [h]

theorem updateNbForks_user_id (ids : List (Option Nat)) (gs : List Gist) :
    (updateNbForks ids gs).map (fun g => (g.id, g.user_id, g.forked_id)) =
      gs.map (fun g => (g.id, g.user_id, g.forked_id)) := by
  unfold updateNbForks
  rw [List.map_map]
  apply List.map_congr_left
  intro g _
  by_cases h : some g.id ∈ ids <;> simp [h]

/-- A query that reads only the key columns of `gists` sees the same rows
when the key columns are the same. -/
theorem filter_map_of_keys {β : Type} (p : Nat × Nat × Option Nat → Bool)
    (f : Nat × Nat × Option Nat → β) (gs gs' : List Gist)
    (h : gs'.map (fun g => (g.id, g.user_id, g.forked_id)) =
      gs.map (fun g => (g.id, g.user_id, g.forked_id))) :
    (gs'.filter (fun g => p (g.id, g.user_id, g.forked_id))).map
        (fun g => f (g.id, g.user_id, g.forked_id)) =
      (gs.filter (fun g => p (g.id, g.user_id, g.forked_id))).map
        (fun g => f (g.id, g.user_id, g.forked_id)) := by
  have e : ∀ l : List Gist,
      (l.filter (fun g => p (g.id, g.user_id, g.forked_id))).map
          (fun g => f (g.id, g.user_id, g.forked_id)) =
        ((l.map (fun g => (g.id, g.user_id, g.forked_id))).filter p).map f := by
    intro l
    rw [List.filter_map, List.map_map]
    rfl
  rw [e, e, h]

theorem selectForkedIdFromGists_updateNbLikes (s : Store) (ids : List Nat) (userId : Nat) :
    selectForkedIdFromGists { s with gists := updateNbLikes ids s.gists } userId =
      selectForkedIdFromGists s userId := by
  unfold selectForkedIdFromGists
  exact filter_map_of_keys (fun k => decide (k.2.1 = userId)) (fun k => k.2.2) _ _
    (updateNbLikes_user_id ids s.gists)

/-- The store after a hook run in which the store executed both updates. -/
theorem BeforeDelete_ok (user : User) (tx : Conn) :
    BeforeDelete user none none tx =
      ({ store :=
          { tx.store with
            gists := updateNbForks (selectForkedIdFromGists tx.store user.ID)
              (updateNbLikes (selectGistIdFromLikes tx.store user.ID) tx.store.gists) }
         issued := tx.issued ++ [.decrementLikes user.ID] ++ [.decrementForks user.ID] },
        none) := by
  simp only [BeforeDelete, Conn.exec, Stmt.run]
  rw [selectForkedIdFromGists_updateNbLikes]

theorem mem_selectGistIdFromLikes (s : Store) (userId gistId : Nat) :
    gistId ∈ selectGistIdFromLikes s userId ↔
      ∃ l ∈ s.likes, l.user_id = userId ∧ l.gist_id = gistId := by
  simp [selectGistIdFromLikes, and_assoc]

theorem mem_selectForkedIdFromGists (s : Store) (userId gistId : Nat) :
    some gistId ∈ selectForkedIdFromGists s userId ↔
      ∃ f ∈ s.gists, f.user_id = userId ∧ f.forked_id = some gistId := by
  simp [selectForkedIdFromGists, and_assoc]

/-- Row by row, the two updates of the hook: the first changes `nb_likes`
alone, the second `nb_forks` alone. -/
theorem hook_rows (L : List Nat) (F : List (Option Nat)) (gs : List Gist) :
    List.Forall₂
      (fun g g' =>
        g' = { g with
                nb_likes := if g.id ∈ L then g.nb_likes - 1 else g.nb_likes
                nb_forks := if some g.id ∈ F then g.nb_forks - 1 else g.nb_forks })
      gs (updateNbForks F (updateNbLikes L gs)) := by
  unfold updateNbForks updateNbLikes
  rw [List.map_map, List.forall₂_map_right_iff, List.forall₂_same]
  intro g _
  by_cases h1 : g.id ∈ L <;> by_cases h2 : some g.id ∈ F <;> simp [h1, h2]

/-- C1: after the pre-delete hook of user `u` (both updates executed), row by
row of table `gists`: a gist for which a `likes` row `(u.ID, g.id)` exists has
`nb_likes` one less than before, every other gist has its `nb_likes`
unchanged. -/
theorem C1_beforeDelete_decrements_likes (u : User) (tx : Conn) :
    (BeforeDelete u none none tx).2 = none ∧
    List.Forall₂
      (fun g g' => g'.id = g.id ∧
        ((∃ l ∈ tx.store.likes, l.user_id = u.ID ∧ l.gist_id = g.id) →
          g'.nb_likes = g.nb_likes - 1) ∧
        ((¬ ∃ l ∈ tx.store.likes, l.user_id = u.ID ∧ l.gist_id = g.id) →
          g'.nb_likes = g.nb_likes))
      tx.store.gists (BeforeDelete u none none tx).1.store.gists := by
  rw [BeforeDelete_ok]
  refine ⟨rfl, ?_⟩
  refine List.Forall₂.imp ?_ (hook_rows _ _ _)
  intro g g' hg
  subst hg
  refine ⟨rfl, ?_, ?_⟩
  · intro h
    simp [(mem_selectGistIdFromLikes tx.store u.ID g.id).mpr h]
  · intro h
    have : g.id ∉ selectGistIdFromLikes tx.store u.ID :=
      fun hm => h ((mem_selectGistIdFromLikes tx.store u.ID g.id).mp hm)
    simp [this]

/-- C2: after the pre-delete hook of user `u` (both updates executed), row by
row of table `gists`: a gist `P` such that `u` owns a gist whose `forked_id`
is `P.id` has `nb_forks` one less than before, every other gist has its
`nb_forks` unchanged. -/
theorem C2_beforeDelete_decrements_forks (u : User) (tx : Conn) :
    (BeforeDelete u none none tx).2 = none ∧
    List.Forall₂
      (fun P P' => P'.id = P.id ∧
        ((∃ f ∈ tx.store.gists, f.user_id = u.ID ∧ f.forked_id = some P.id) →
          P'.nb_forks = P.nb_forks - 1) ∧
        ((¬ ∃ f ∈ tx.store.gists, f.user_id = u.ID ∧ f.forked_id = some P.id) →
          P'.nb_forks = P.nb_forks))
      tx.store.gists (BeforeDelete u none none tx).1.store.gists := by
  rw [BeforeDelete_ok]
  refine ⟨rfl, ?_⟩
  refine List.Forall₂.imp ?_ (hook_rows _ _ _)
  intro g g' hg
  subst hg
  refine ⟨rfl, ?_, ?_⟩
  · intro h
    simp [(mem_selectForkedIdFromGists tx.store u.ID g.id).mpr h]
  · intro h
    have : some g.id ∉ selectForkedIdFromGists tx.store u.ID :=
      fun hm => h ((mem_selectForkedIdFromGists tx.store u.ID g.id).mp hm)
    simp [this]

theorem updateNbLikes_withoutCounters (ids : List Nat) (gs : List Gist) :
    (updateNbLikes ids gs).map Gist.withoutCounters = gs.map Gist.withoutCounters := by
  unfold updateNbLikes
  rw [List.map_map]
  apply List.map_congr_left
  intro g _
  by_cases h : g.id ∈ ids <;> simp [h, Gist.withoutCounters]

theorem updateNbForks_withoutCounters (ids : List (Option Nat)) (gs : List Gist) :
    (updateNbForks ids gs).map Gist.withoutCounters = gs.map Gist.withoutCounters := by
  unfold updateNbForks
  rw [List.map_map]
  apply List.map_congr_left
  intro g _
  by_cases h : some g.id ∈ ids <;> simp [h, Gist.withoutCounters]

/-- C5: whatever the outcome of its two updates, the pre-delete hook writes
only the columns `nb_likes` and `nb_forks` of table `gists`: the table has the
same rows in the same order with every other column (`updated_at` among them)
as before, and tables `users`, `likes` and `ssh_keys` are unchanged. -/
theorem C5_beforeDelete_frame (u : User) (f1 f2 : Option StoreError) (tx : Conn) :
    (BeforeDelete u f1 f2 tx).1.store.gists.map Gist.withoutCounters =
        tx.store.gists.map Gist.withoutCounters ∧
      (BeforeDelete u f1 f2 tx).1.store.gists.length = tx.store.gists.length ∧
      (BeforeDelete u f1 f2 tx).1.store.gists.map (fun g => g.updated_at) =
        tx.store.gists.map (fun g => g.updated_at) ∧
      (BeforeDelete u f1 f2 tx).1.store.users = tx.store.users ∧
      (BeforeDelete u f1 f2 tx).1.store.likes = tx.store.likes ∧
      (BeforeDelete u f1 f2 tx).1.store.ssh_keys = tx.store.ssh_keys := by
  have key : (BeforeDelete u f1 f2 tx).1.store.gists.map Gist.withoutCounters =
        tx.store.gists.map Gist.withoutCounters ∧
      (BeforeDelete u f1 f2 tx).1.store.users = tx.store.users ∧
      (BeforeDelete u f1 f2 tx).1.store.likes = tx.store.likes ∧
      (BeforeDelete u f1 f2 tx).1.store.ssh_keys = tx.store.ssh_keys := by
    cases f1 <;> cases f2 <;>
      simp [BeforeDelete, Conn.exec, Stmt.run, updateNbLikes_withoutCounters,
        updateNbForks_withoutCounters]
  obtain ⟨hg, hu, hl, hk⟩ := key
  refine ⟨hg, ?_, ?_, hu, hl, hk⟩
  · simpa using congrArg List.length hg
  · have := congrArg (List.map (fun g : Gist => g.updated_at)) hg
    simpa [List.map_map, Function.comp_def, Gist.withoutCounters] using this

/-! ## Delete -/

/-- C4: when one of the two counter updates of the hook fails with `e` (the
first, or the second after the first was executed), `Delete` returns `e`, the
store contents are those before the call (so the user row is still there and
no counter has changed), and a failure of the first update ends the hook: the
only statement issued is the first update. -/
theorem C4_delete_atomic (u : User) (f1 f2 f3 : Option StoreError) (db : Conn)
    (e : StoreError) (h : f1 = some e ∨ (f1 = none ∧ f2 = some e)) :
    (Delete u f1 f2 f3 db).2 = some e ∧
      (Delete u f1 f2 f3 db).1.store = db.store ∧
      (f1 = some e →
        (Delete u f1 f2 f3 db).1.issued = db.issued ++ [Stmt.decrementLikes u.ID]) ∧
      Stmt.deleteUser u.ID ∉
        ((Delete u f1 f2 f3 db).1.issued.drop db.issued.length) := by
  rcases h with h | ⟨h1, h2⟩
  · subst h
    simp [Delete, dbDelete, BeforeDelete, Conn.exec]
  · subst h1 h2
    simp [Delete, dbDelete, BeforeDelete, Conn.exec, Stmt.run]

theorem hook_map (L : List Nat) (F : List (Option Nat)) (gs : List Gist) :
    updateNbForks F (updateNbLikes L gs) = gs.map (decrementRow L F) := by
  unfold updateNbForks updateNbLikes
  rw [List.map_map]
  apply List.map_congr_left
  intro g _
  by_cases h1 : g.id ∈ L <;> by_cases h2 : some g.id ∈ F <;> simp [h1, h2, decrementRow]

/-- Rows that satisfy `p` split into those that also satisfy `q` and those
that do not. -/
theorem countP_split {α : Type} (p q : α → Bool) (l : List α) :
    l.countP p = l.countP (fun a => p a && q a) + l.countP (fun a => p a && !q a) := by
  induction l with
  | nil => simp
  | cons a l ih =>
    simp only [List.countP_cons, ih]
    cases p a <;> cases q a <;> simp <;> omega

/-- The store after a delete in which the store executed every statement:
the user owns no SSH key. -/
theorem Delete_ok (u : User) (db : Conn) (hK : db.store.ownsNoKey u.ID) :
    Delete u none none none db =
      ({ store := cascadeDeleteUser u.ID
            { db.store with
              gists := db.store.gists.map
                (decrementRow (selectGistIdFromLikes db.store u.ID)
                  (selectForkedIdFromGists db.store u.ID)) }
         issued := db.issued ++ [.decrementLikes u.ID] ++ [.decrementForks u.ID] ++
            [.deleteUser u.ID] },
        none) := by
  have hany : (db.store.ssh_keys.any (fun k => decide (k.user_id = u.ID))) = false := by
    rw [List.any_eq_false]
    intro k hk
    simpa using hK k hk
  simp [Delete, dbDelete, BeforeDelete_ok, Conn.exec, Stmt.run, deleteUserRow, hook_map, hany]

/-- The delete of a user who owns an SSH key is refused by the foreign key of
`ssh_keys` and rolled back: the error is returned and the contents are those
before the call. -/
theorem Delete_refused (u : User) (db : Conn) (k : SSHKey) (hk : k ∈ db.store.ssh_keys)
    (hu : k.user_id = u.ID) :
    (Delete u none none none db).2 = some (.failure "FOREIGN KEY constraint failed") ∧
      (Delete u none none none db).1.store = db.store := by
  have hany : (db.store.ssh_keys.any (fun k => decide (k.user_id = u.ID))) = true := by
    rw [List.any_eq_true]
    exact ⟨k, hk, by simpa using hu⟩
  simp [Delete, dbDelete, BeforeDelete_ok, Conn.exec, Stmt.run, deleteUserRow, hany]

theorem decrementRow_keys (L : List Nat) (F : List (Option Nat)) (g : Gist) :
    (decrementRow L F g).id = g.id ∧ (decrementRow L F g).user_id = g.user_id ∧
      (decrementRow L F g).forked_id = g.forked_id := ⟨rfl, rfl, rfl⟩

/-- The likes counters stay in sync through a delete. -/
theorem delete_likesInSync (uid : Nat) (s : Store) (F : List (Option Nat))
    (hG : s.gistsPK) (hL : s.likesPK) (hS : s.likesInSync) :
    (cascadeDeleteUser uid
      { s with gists := s.gists.map (decrementRow (selectGistIdFromLikes s uid) F) }).likesInSync := by
  intro g' hg'
  simp only [cascadeDeleteUser, List.mem_filter, List.mem_map] at hg'
  obtain ⟨⟨g, hg, rfl⟩, hown⟩ := hg'
  have hown' : g.user_id ≠ uid := by simpa [decrementRow] using hown
  -- the surviving gist is not among the removed ones
  have hgone : g.id ∉ (List.filter (fun x : Gist => decide (x.user_id = uid))
      (s.gists.map (decrementRow (selectGistIdFromLikes s uid) F))).map (fun x => x.id) := by
    intro hm
    simp only [List.mem_map, List.mem_filter, decide_eq_true_eq] at hm
    obtain ⟨x, ⟨⟨y, hy, rfl⟩, hyo⟩, hid⟩ := hm
    have hyo' : y.user_id = uid := hyo
    have hid' : y.id = g.id := hid
    have : y = g := (List.inj_on_of_nodup_map hG) hy hg hid'
    exact hown' (this ▸ hyo')
  have hsync := hS g hg
  have e1 : (List.filter (fun l : Like => decide (l.gist_id = (decrementRow (selectGistIdFromLikes s uid) F g).id))
      (cascadeDeleteUser uid
        { s with gists := s.gists.map (decrementRow (selectGistIdFromLikes s uid) F) }).likes).length =
      s.likes.countP (fun l => decide (l.gist_id = g.id) && !decide (l.user_id = uid)) := by
    simp only [cascadeDeleteUser, List.filter_filter, List.countP_eq_length_filter]
    congr 1
    apply List.filter_congr
    intro l _
    by_cases h1 : l.gist_id = g.id
    · by_cases h2 : l.user_id = uid
      · simp [h1, h2, decrementRow]
      · have := hgone
        simp only [decide_eq_true_eq] at this
        simp [h1, h2, decrementRow]
        simpa [decrementRow] using this
    · simp [h1, decrementRow]
  have e2 : s.likes.countP (fun l => decide (l.gist_id = g.id) && decide (l.user_id = uid)) =
      if g.id ∈ selectGistIdFromLikes s uid then 1 else 0 := by
    have hc : s.likes.countP (fun l => decide (l.gist_id = g.id) && decide (l.user_id = uid)) =
        s.likes.count ({ user_id := uid, gist_id := g.id } : Like) := by
      rw [List.count]
      apply List.countP_congr
      intro l _
      rcases l with ⟨a, b⟩
      simp only [Bool.and_eq_true, decide_eq_true_eq, beq_iff_eq, Like.mk.injEq]
      tauto
    rw [hc, List.count_eq_of_nodup hL]
    have hm : ({ user_id := uid, gist_id := g.id } : Like) ∈ s.likes ↔
        g.id ∈ selectGistIdFromLikes s uid := by
      rw [mem_selectGistIdFromLikes]
      constructor
      · intro h
        exact ⟨_, h, rfl, rfl⟩
      · rintro ⟨⟨a, b⟩, hl, ha, hb⟩
        simp only at ha hb
        subst ha hb
        exact hl
    by_cases h : g.id ∈ selectGistIdFromLikes s uid
    · simp [h, hm.mpr h]
    · have hn : ({ user_id := uid, gist_id := g.id } : Like) ∉ s.likes :=
        fun hin => h (hm.mp hin)
      simp [h, hn]
  have e3 := countP_split (fun l : Like => decide (l.gist_id = g.id))
    (fun l => decide (l.user_id = uid)) s.likes
  rw [List.countP_eq_length_filter] at e3
  rw [e1]
  have hval : (decrementRow (selectGistIdFromLikes s uid) F g).nb_likes =
      if g.id ∈ selectGistIdFromLikes s uid then g.nb_likes - 1 else g.nb_likes := rfl
  rw [hval, hsync]
  by_cases h : g.id ∈ selectGistIdFromLikes s uid
  · simp only [h, if_true] at e2 ⊢
    omega
  · simp only [h, if_false] at e2 ⊢
    omega

/-- The forks counters stay in sync through the delete of a user who owns at
most one fork of any gist. -/
theorem delete_forksInSync (uid : Nat) (s : Store) (L : List Nat)
    (hS : s.forksInSync) (hOnce : s.forksOncePerParent uid) :
    (cascadeDeleteUser uid
      { s with gists := s.gists.map (decrementRow L (selectForkedIdFromGists s uid)) }).forksInSync := by
  intro g' hg'
  simp only [cascadeDeleteUser, List.mem_filter, List.mem_map] at hg'
  obtain ⟨⟨g, hg, rfl⟩, _⟩ := hg'
  have hsync := hS g hg
  have honce := hOnce g hg
  have e1 : (List.filter
      (fun f : Gist => decide (f.forked_id = some (decrementRow L (selectForkedIdFromGists s uid) g).id))
      (cascadeDeleteUser uid
        { s with gists := s.gists.map (decrementRow L (selectForkedIdFromGists s uid)) }).gists).length =
      s.gists.countP (fun f => decide (f.forked_id = some g.id) && !decide (f.user_id = uid)) := by
    simp only [cascadeDeleteUser, List.filter_filter, List.countP_eq_length_filter,
      List.filter_map, List.length_map]
    congr 1
    apply List.filter_congr
    intro f _
    by_cases h1 : f.forked_id = some g.id <;> by_cases h2 : f.user_id = uid <;>
      simp [h1, h2, decrementRow]
  have e2 : s.gists.countP (fun f => decide (f.forked_id = some g.id) && decide (f.user_id = uid)) =
      if some g.id ∈ selectForkedIdFromGists s uid then 1 else 0 := by
    have hle : s.gists.countP (fun f => decide (f.forked_id = some g.id) && decide (f.user_id = uid)) ≤ 1 := by
      have hc : s.gists.countP (fun f => decide (f.forked_id = some g.id) && decide (f.user_id = uid)) =
          (s.gists.filter (fun f => decide (f.user_id = uid ∧ f.forked_id = some g.id))).length := by
        rw [List.countP_eq_length_filter]
        congr 1
        apply List.filter_congr
        intro f _
        by_cases h1 : f.forked_id = some g.id <;> by_cases h2 : f.user_id = uid <;> simp [h1, h2]
      rw [hc]
      exact honce
    by_cases h : some g.id ∈ selectForkedIdFromGists s uid
    · have hpos : 0 < s.gists.countP
          (fun f => decide (f.forked_id = some g.id) && decide (f.user_id = uid)) := by
        rw [List.countP_pos_iff]
        obtain ⟨f, hf, hu, hp⟩ := (mem_selectForkedIdFromGists s uid g.id).mp h
        exact ⟨f, hf, by simp [hu, hp]⟩
      simp only [h, if_true]
      omega
    · have hz : s.gists.countP
          (fun f => decide (f.forked_id = some g.id) && decide (f.user_id = uid)) = 0 := by
        rw [List.countP_eq_zero]
        intro f hf hp
        simp only [Bool.and_eq_true, decide_eq_true_eq] at hp
        exact h ((mem_selectForkedIdFromGists s uid g.id).mpr ⟨f, hf, hp.2, hp.1⟩)
      simp only [h, if_false]
      exact hz
  have e3 := countP_split (fun f : Gist => decide (f.forked_id = some g.id))
    (fun f => decide (f.user_id = uid)) s.gists
  rw [List.countP_eq_length_filter] at e3
  rw [e1]
  have hval : (decrementRow L (selectForkedIdFromGists s uid) g).nb_forks =
      if some g.id ∈ selectForkedIdFromGists s uid then g.nb_forks - 1 else g.nb_forks := rfl
  rw [hval, hsync]
  by_cases h : some g.id ∈ selectForkedIdFromGists s uid
  · simp only [h, if_true] at e2 ⊢
    omega
  · simp only [h, if_false] at e2 ⊢
    omega

/-- C3 (as stated, refuted): (1) in `twoForksStore` both counters are in sync
and the key constraints hold, yet after the delete of user 1, who owns no SSH
key and two forks of gist 1, the forks counter of gist 1 is 1 while no fork of
it is left; (2) in `likeAndForkStore`, equally in sync, user 1 owns an SSH
key: the `DELETE` is refused by the foreign key of `ssh_keys`, the delete
returns the error with the contents as before, and the `likes` row of user 1
remains. -/
theorem C3_counterexample :
    (twoForksStore.gistsPK ∧ twoForksStore.likesPK ∧
      twoForksStore.likesInSync ∧ twoForksStore.forksInSync ∧
      twoForksStore.ownsNoKey 1 ∧
      (Delete ⟨1, "u", "", false, 0, "", ""⟩ none none none ⟨twoForksStore, []⟩).2 = none ∧
      (Delete ⟨1, "u", "", false, 0, "", ""⟩ none none none ⟨twoForksStore, []⟩).1.store.gists =
        [⟨1, 2, none, 0, 1, 0, ""⟩] ∧
      ¬ (Delete ⟨1, "u", "", false, 0, "", ""⟩ none none none
          ⟨twoForksStore, []⟩).1.store.forksInSync) ∧
    (likeAndForkStore.gistsPK ∧ likeAndForkStore.likesPK ∧
      likeAndForkStore.likesInSync ∧ likeAndForkStore.forksInSync ∧
      likeAndForkStore.forksOncePerParent 1 ∧
      Delete ⟨1, "u", "", false, 0, "", ""⟩ none none none ⟨likeAndForkStore, []⟩ =
        (⟨likeAndForkStore, [.decrementLikes 1, .decrementForks 1, .deleteUser 1]⟩,
          some (.failure "FOREIGN KEY constraint failed")) ∧
      ¬ ∀ l ∈ (Delete ⟨1, "u", "", false, 0, "", ""⟩ none none none
          ⟨likeAndForkStore, []⟩).1.store.likes, l.user_id ≠ 1) := by
  decide

/-- C3 (amended): in a store that satisfies the primary keys of `gists` and
`likes` and in which both counters are in sync, the delete of a user who owns
no SSH key (every statement executed) succeeds, leaves the likes counter in
sync for every gist that remains, leaves the forks counter in sync for every
gist that remains when the user owns at most one fork of any gist, and leaves
no `likes` row, no `users` row and no gist of the user. -/
theorem C3_delete_keeps_counters_in_sync (u : User) (db : Conn)
    (hG : db.store.gistsPK) (hL : db.store.likesPK)
    (hSL : db.store.likesInSync) (hSF : db.store.forksInSync)
    (hK : db.store.ownsNoKey u.ID) :
    (Delete u none none none db).2 = none ∧
      (Delete u none none none db).1.store.likesInSync ∧
      (db.store.forksOncePerParent u.ID →
        (Delete u none none none db).1.store.forksInSync) ∧
      (∀ l ∈ (Delete u none none none db).1.store.likes, l.user_id ≠ u.ID) ∧
      (∀ x ∈ (Delete u none none none db).1.store.users, x.ID ≠ u.ID) ∧
      (∀ g ∈ (Delete u none none none db).1.store.gists, g.user_id ≠ u.ID) := by
  rw [Delete_ok u db hK]
  refine ⟨rfl, delete_likesInSync u.ID db.store _ hG hL hSL,
    fun hOnce => delete_forksInSync u.ID db.store _ hSF hOnce, ?_, ?_, ?_⟩
  · intro l hl
    simp only [cascadeDeleteUser, List.mem_filter, decide_eq_true_eq] at hl
    exact hl.2.1
  · intro x hx
    simp only [cascadeDeleteUser, List.mem_filter, decide_eq_true_eq] at hx
    exact hx.2
  · intro g hg
    simp only [cascadeDeleteUser, List.mem_filter, decide_eq_true_eq] at hg
    exact hg.2

/-- Witness of C3 (amended) on `keyOfOtherStore`: user 1, who owns no SSH key,
is deleted; the key of user 2 stays. -/
theorem C3_witness :
    keyOfOtherStore.gistsPK ∧ keyOfOtherStore.likesPK ∧
      keyOfOtherStore.likesInSync ∧ keyOfOtherStore.forksInSync ∧
      keyOfOtherStore.ownsNoKey 1 ∧ keyOfOtherStore.forksOncePerParent 1 ∧
      (Delete ⟨1, "u", "", false, 0, "", ""⟩ none none none ⟨keyOfOtherStore, []⟩).1.store =
        { users := [⟨2, "v", "", false, 0, "", ""⟩]
          gists := [⟨1, 2, none, 0, 0, 0, ""⟩]
          ssh_keys := [⟨1, 2, ""⟩]
          likes := [] } ∧
      (Delete ⟨1, "u", "", false, 0, "", ""⟩ none none none ⟨keyOfOtherStore, []⟩).1.store.likesInSync ∧
      (Delete ⟨1, "u", "", false, 0, "", ""⟩ none none none ⟨keyOfOtherStore, []⟩).1.store.forksInSync :=
  ⟨by decide, by decide, by decide, by decide, by decide, by decide, by decide,
    (C3_delete_keeps_counters_in_sync ⟨1, "u", "", false, 0, "", ""⟩ ⟨keyOfOtherStore, []⟩
      (by decide) (by decide) (by decide) (by decide) (by decide)).2.1,
    (C3_delete_keeps_counters_in_sync ⟨1, "u", "", false, 0, "", ""⟩ ⟨keyOfOtherStore, []⟩
      (by decide) (by decide) (by decide) (by decide) (by decide)).2.2.1 (by decide)⟩

/-- Witness of C4 on `likeAndForkStore`: the second update fails. -/
theorem C4_witness :
    (Delete ⟨1, "u", "", false, 0, "", ""⟩ none (some (.failure "down")) none
        ⟨likeAndForkStore, []⟩).2 = some (.failure "down") ∧
      (Delete ⟨1, "u", "", false, 0, "", ""⟩ none (some (.failure "down")) none
        ⟨likeAndForkStore, []⟩).1.store = likeAndForkStore :=
  ⟨(C4_delete_atomic ⟨1, "u", "", false, 0, "", ""⟩ none (some (.failure "down")) none
      ⟨likeAndForkStore, []⟩ (.failure "down") (Or.inr ⟨rfl, rfl⟩)).1,
    (C4_delete_atomic ⟨1, "u", "", false, 0, "", ""⟩ none (some (.failure "down")) none
      ⟨likeAndForkStore, []⟩ (.failure "down") (Or.inr ⟨rfl, rfl⟩)).2.1⟩

/-! ## Pagination -/

theorem wrapInt64_of_inRange (x : Int) (h0 : 0 ≤ x) (h1 : x < 2 ^ 63) : wrapInt64 x = x := by
  unfold wrapInt64
  omega

/-- The page of an offset whose tenfold fits a Go `int`: rows `10*k` to
`10*k + 10` of the table ordered by id. -/
theorem GetAllUsers_inRange (k : Int) (s : Store) (h0 : 0 ≤ k) (h1 : 10 * k < 2 ^ 63) :
    GetAllUsers none k s =
      (((orderByIdAsc s.users).drop (10 * k.toNat)).take 11, none) := by
  have hw : wrapInt64 (k * 10) = k * 10 := wrapInt64_of_inRange _ (by omega) (by omega)
  simp only [GetAllUsers, limitOffset, hw]
  by_cases hk : k * 10 > 0
  · have : (k * 10).toNat = 10 * k.toNat := by omega
    simp [hk, this]
  · have : k.toNat = 0 := by omega
    simp [hk, this]

theorem orderByIdAsc_perm (users : List User) : (orderByIdAsc users).Perm users :=
  List.perm_insertionSort _ users

theorem orderByIdAsc_length (users : List User) : (orderByIdAsc users).length = users.length :=
  (orderByIdAsc_perm users).length_eq

theorem orderByIdAsc_sorted (users : List User) :
    (orderByIdAsc users).Pairwise (fun a b => a.ID ≤ b.ID) :=
  List.sorted_insertionSort _ users

/-- Under the primary key, the ordered table is strictly increasing in id. -/
theorem orderByIdAsc_strict (users : List User) (hPK : (users.map (fun u => u.ID)).Nodup) :
    (orderByIdAsc users).Pairwise (fun a b => a.ID < b.ID) := by
  have hnd : ((orderByIdAsc users).map (fun u => u.ID)).Nodup :=
    ((orderByIdAsc_perm users).map _).nodup_iff.mpr hPK
  have hne : (orderByIdAsc users).Pairwise (fun a b => a.ID ≠ b.ID) :=
    List.pairwise_map.mp hnd
  exact ((orderByIdAsc_sorted users).and hne).imp (fun h => Nat.lt_of_le_of_ne h.1 h.2)

/-- C6 (as stated, refuted): with five stored users and the non-negative
offset `k = 1844674407370955162`, whose tenfold is `2^64 + 4` and wraps to 4
in a Go `int`, the page is the fifth user, while positions `10*k ..` of the
ordered table are empty and `min(11, max(0, n - 10*k))` is 0. -/
theorem C6_counterexample :
    (0 : Int) ≤ 1844674407370955162 ∧
      (1844674407370955162 : Int) < 2 ^ 63 ∧
      wrapInt64 (1844674407370955162 * 10) = 4 ∧
      GetAllUsers none 1844674407370955162 fiveUsers = ([userRow 5 "e"], none) ∧
      ((orderByIdAsc fiveUsers.users).drop (10 * 1844674407370955162)).take 11 = [] ∧
      ((GetAllUsers none 1844674407370955162 fiveUsers).1.length : Int) ≠
        min 11 (max 0 ((fiveUsers.users.length : Int) - 10 * 1844674407370955162)) := by
  decide

/-- C6 (amended): for an offset `k >= 0` with `10*k < 2^63` (the product fits
a Go `int`), `GetAllUsers(k)` returns without error exactly rows `10*k` to
`10*k + 10` of the user table ordered by ascending id, a permutation of the
table: `min(11, n - 10*k)` rows for `n` stored users, strictly increasing in
id when the primary key holds; ten stored users give a page of ten for
`k = 0`. -/
theorem C6_getAllUsers_page (k : Int) (s : Store) (h0 : 0 ≤ k) (h1 : 10 * k < 2 ^ 63) :
    (GetAllUsers none k s).2 = none ∧
      (GetAllUsers none k s).1 = ((orderByIdAsc s.users).drop (10 * k.toNat)).take 11 ∧
      (orderByIdAsc s.users).Perm s.users ∧
      (orderByIdAsc s.users).Pairwise (fun a b => a.ID ≤ b.ID) ∧
      (GetAllUsers none k s).1.length = min 11 (s.users.length - 10 * k.toNat) ∧
      (s.usersPK → (GetAllUsers none k s).1.Pairwise (fun a b => a.ID < b.ID)) ∧
      (s.users.length = 10 → k = 0 → (GetAllUsers none k s).1.length = 10) := by
  rw [GetAllUsers_inRange k s h0 h1]
  have hlen : (((orderByIdAsc s.users).drop (10 * k.toNat)).take 11).length =
      min 11 (s.users.length - 10 * k.toNat) := by
    rw [List.length_take, List.length_drop, orderByIdAsc_length]
  refine ⟨rfl, rfl, orderByIdAsc_perm _, orderByIdAsc_sorted _, hlen, ?_, ?_⟩
  · intro hPK
    exact ((orderByIdAsc_strict s.users hPK).sublist (List.drop_sublist _ _)).sublist
      (List.take_sublist _ _)
  · intro hn hk
    show (((orderByIdAsc s.users).drop (10 * k.toNat)).take 11).length = 10
    rw [hlen, hn, hk]
    rfl

/-- Witness of C6 (amended): page 0 of `fiveUsers`. -/
theorem C6_witness :
    (GetAllUsers none 0 fiveUsers).1 =
      [userRow 1 "a", userRow 2 "b", userRow 3 "c", userRow 4 "d", userRow 5 "e"] ∧
      (GetAllUsers none 0 fiveUsers).1.length = min 11 (fiveUsers.users.length - 10 * (0 : Int).toNat) :=
  ⟨by decide, (C6_getAllUsers_page 0 fiveUsers (by decide) (by decide)).2.2.2.2.1⟩

theorem GetAllUsers_nat (i : Nat) (s : Store) (h : 10 * (i : Int) < 2 ^ 63) :
    (GetAllUsers none (i : Int) s).1 = ((orderByIdAsc s.users).drop (10 * i)).take 11 := by
  rw [GetAllUsers_inRange (i : Int) s (by omega) h]
  simp

theorem pageRows_eq (i : Nat) (s : Store) (h : 10 * (i : Int) < 2 ^ 63) :
    pageRows i s = ((orderByIdAsc s.users).drop (10 * i)).take 10 := by
  unfold pageRows
  rw [GetAllUsers_nat i s h, List.take_take]
  rfl

/-- The rendered rows of pages `0 .. K-1`, one after the other, are the first
`10*K` rows of a list. -/
theorem flatten_segments {α : Type} (l : List α) (K : Nat) :
    ((List.range K).map (fun i => (l.drop (10 * i)).take 10)).flatten = l.take (10 * K) := by
  induction K with
  | zero => simp
  | succ K ih =>
    rw [List.range_succ, List.map_append, List.flatten_append, ih]
    simp only [List.map_cons, List.map_nil, List.flatten_cons, List.flatten_nil,
      List.append_nil]
    rw [show 10 * (K + 1) = 10 * K + 10 by ring, List.take_add]

/-- C7 (as stated, refuted): with one stored user and the non-negative offset
`k = 922337203685477580`, page `k` is empty (`10*k` fits a Go `int` and is
beyond the table) while page `k+1` holds the user: `10*(k+1)` wraps to a
negative `int`, for which no `OFFSET` clause is written. -/
theorem C7_counterexample :
    (0 : Int) ≤ 922337203685477580 ∧
      ((922337203685477580 : Int) + 1) < 2 ^ 63 ∧
      wrapInt64 ((922337203685477580 + 1) * 10) = -9223372036854775806 ∧
      (GetAllUsers none 922337203685477580 oneUser).1 = [] ∧
      (GetAllUsers none (922337203685477580 + 1) oneUser).1 = [userRow 1 "a"] ∧
      ¬ ((GetAllUsers none 922337203685477580 oneUser).1.length = 11 ↔
          (GetAllUsers none (922337203685477580 + 1) oneUser).1 ≠ []) := by
  decide

/-- C7 (amended): for an offset `k >= 0` with `10*(k+1) < 2^63` (the products
fit a Go `int`), page `k` has 11 rows if and only if page `k+1` is not empty,
and then its eleventh row is the first row of page `k+1`; the first ten rows
of pages `0 .. K-1` (`K <= k+1`), one after the other, are the first `10*K`
rows of the user table ordered by id, hence a permutation of the whole table
once `10*K` reaches its size, and under the primary key the first ten rows of
two different pages have no row in common. -/
theorem C7_sentinel (k : Nat) (s : Store) (h : 10 * ((k : Int) + 1) < 2 ^ 63) :
    ((GetAllUsers none (k : Int) s).1.length = 11 ↔
        (GetAllUsers none ((k : Int) + 1) s).1 ≠ []) ∧
      ((GetAllUsers none ((k : Int) + 1) s).1 ≠ [] →
        (GetAllUsers none (k : Int) s).1[10]? = (GetAllUsers none ((k : Int) + 1) s).1.head?) ∧
      (∀ K : Nat, K ≤ k + 1 →
        ((List.range K).map (fun i => pageRows i s)).flatten =
          (orderByIdAsc s.users).take (10 * K)) ∧
      (∀ K : Nat, K ≤ k + 1 → s.users.length ≤ 10 * K →
        (((List.range K).map (fun i => pageRows i s)).flatten).Perm s.users) ∧
      (s.usersPK → ∀ i j : Nat, i < j → j ≤ k + 1 →
        List.Disjoint (pageRows i s) (pageRows j s)) := by
  have hk : (GetAllUsers none (k : Int) s).1 =
      ((orderByIdAsc s.users).drop (10 * k)).take 11 := GetAllUsers_nat k s (by omega)
  have hk1 : (GetAllUsers none ((k : Int) + 1) s).1 =
      ((orderByIdAsc s.users).drop (10 * (k + 1))).take 11 := by
    have := GetAllUsers_nat (k + 1) s (by push_cast; omega)
    simpa using this
  have hpage : ∀ i : Nat, i ≤ k + 1 →
      pageRows i s = ((orderByIdAsc s.users).drop (10 * i)).take 10 := by
    intro i hi
    apply pageRows_eq
    have : (i : Int) ≤ (k : Int) + 1 := by exact_mod_cast hi
    omega
  have hflat : ∀ K : Nat, K ≤ k + 1 →
      ((List.range K).map (fun i => pageRows i s)).flatten =
        (orderByIdAsc s.users).take (10 * K) := by
    intro K hK
    have hmap : (List.range K).map (fun i => pageRows i s) =
        (List.range K).map (fun i => ((orderByIdAsc s.users).drop (10 * i)).take 10) := by
      apply List.map_congr_left
      intro i hi
      exact hpage i (by have := List.mem_range.mp hi; omega)
    rw [hmap, flatten_segments]
  refine ⟨?_, ?_, hflat, ?_, ?_⟩
  · rw [hk, hk1, ← List.length_pos, List.length_take, List.length_take, List.length_drop,
      List.length_drop]
    omega
  · intro _
    rw [hk, hk1, List.head?_take, List.getElem?_take]
    simp [List.head?_drop, List.getElem?_drop]
    ring_nf
  · intro K hK hn
    rw [hflat K hK, List.take_of_length_le (by rw [orderByIdAsc_length]; exact hn)]
    exact orderByIdAsc_perm _
  · intro hPK i j hij hj
    rw [hpage i (by omega), hpage j hj]
    have hnd : (orderByIdAsc s.users).Nodup := by
      have := orderByIdAsc_strict s.users hPK
      exact this.imp (fun hlt heq => by rw [heq] at hlt; exact Nat.lt_irrefl _ hlt)
    have hsplit : ((orderByIdAsc s.users).take (10 * j) ++
        (orderByIdAsc s.users).drop (10 * j)).Nodup := by
      rw [List.take_append_drop]; exact hnd
    have hdis := List.disjoint_of_nodup_append hsplit
    intro x hx hy
    apply hdis (a := x)
    · have hx' := List.mem_of_mem_take hx
      -- a row at a position below `10*i + 10` is among the first `10*j` rows
      have hsub : ((orderByIdAsc s.users).drop (10 * i)).take 10 =
          ((orderByIdAsc s.users).take (10 * i + 10)).drop (10 * i) := by
        rw [List.take_drop]
      rw [hsub] at hx
      have hx2 := List.mem_of_mem_drop hx
      have hle : 10 * i + 10 ≤ 10 * j := by omega
      have : (orderByIdAsc s.users).take (10 * i + 10) =
          ((orderByIdAsc s.users).take (10 * j)).take (10 * i + 10) := by
        rw [List.take_take, Nat.min_eq_left hle]
      rw [this] at hx2
      exact List.mem_of_mem_take hx2
    · exact List.mem_of_mem_take hy

/-- Witness of C7 (amended): pages 0 and 1 of `twelveUsers`. -/
theorem C7_witness :
    (GetAllUsers none 0 twelveUsers).1.length = 11 ∧
      (GetAllUsers none 1 twelveUsers).1.map (fun u => u.ID) = [11, 12] ∧
      ((GetAllUsers none ((0 : Nat) : Int) twelveUsers).1.length = 11 ↔
        (GetAllUsers none (((0 : Nat) : Int) + 1) twelveUsers).1 ≠ []) :=
  ⟨by decide, by decide, (C7_sentinel 0 twelveUsers (by decide)).1⟩

/-! ## Lookups by username -/

/-- A pattern without wildcard matches exactly the texts equal to it up to
ASCII letter case. -/
theorem likeMatch_noWildcard (p : List Char) (hp : '%' ∉ p) (hu : '_' ∉ p) (t : List Char) :
    likeMatch p t = true ↔ p.map Char.toLower = t.map Char.toLower := by
  induction p generalizing t with
  | nil =>
    cases t <;> simp [likeMatch]
  | cons a p ih =>
    have ha : a ≠ '%' := fun h => hp (by simp [h])
    have hb : a ≠ '_' := fun h => hu (by simp [h])
    have hp' : '%' ∉ p := fun h => hp (List.mem_cons_of_mem _ h)
    have hu' : '_' ∉ p := fun h => hu (List.mem_cons_of_mem _ h)
    cases t with
    | nil => simp [likeMatch, ha]
    | cons c rest =>
      simp [likeMatch, ha, hb, ih hp' hu' rest]

theorem usernameLike_noWildcard (pattern : String) (hw : noWildcard pattern) (u : User) :
    usernameLike pattern u = true ↔ eqFold u.Username pattern := by
  unfold usernameLike eqFold
  rw [likeMatch_noWildcard _ hw.1 hw.2]
  exact eq_comm

theorem first_singleton (u : User) : first [u] = .ok u := rfl

theorem first_eq_notFound (rows : List User) : first rows = .error .notFound ↔ rows = [] := by
  unfold first
  constructor
  · intro h
    cases hs : (orderByIdAsc rows).head? with
    | none =>
      have : orderByIdAsc rows = [] := by simpa using hs
      have hl := orderByIdAsc_length rows
      rw [this] at hl
      exact List.length_eq_zero.mp hl.symm
    | some v => rw [hs] at h; cases h
  · intro h
    subst h
    rfl

theorem first_mem (rows : List User) (v : User) (h : first rows = .ok v) : v ∈ rows := by
  unfold first at h
  cases hs : (orderByIdAsc rows).head? with
  | none => rw [hs] at h; cases h
  | some w =>
    rw [hs] at h
    cases h
    exact (orderByIdAsc_perm rows).subset (List.mem_of_mem_head? hs)

/-- What a successful `Create` returns. -/
theorem Create_ok (now : Int) (u u' : User) (s s' : Store)
    (hc : Create now none u s = .ok (u', s')) :
    u'.Username = u.Username ∧ s' = { s with users := s.users ++ [u'] } ∧
      (∀ x ∈ s.users, x.ID ≠ u'.ID ∧ x.Username ≠ u'.Username) := by
  simp only [Create] at hc
  split at hc
  · cases hc
  · rename_i hany
    cases hc
    refine ⟨rfl, rfl, ?_⟩
    intro x hx
    simp only [List.any_eq_true, Bool.or_eq_true, decide_eq_true_eq, not_exists, not_and,
      not_or] at hany
    exact hany x hx

/-- C8 (as stated, refuted): with the one user `a` stored, `UserExists("%")`
returns true although no stored username equals `%` up to letter case. -/
theorem C8_counterexample :
    UserExists none "%" oneUser = (true, none) ∧
      ¬ ∃ u ∈ oneUser.users, eqFold u.Username "%" := by
  decide

/-- C8 (amended): for an argument without the wildcards `%` and `_` of `LIKE`,
`UserExists` (its query executed) returns without error, returns true if and
only if some stored username equals the argument up to ASCII letter case, and
returns false with no error when none does; after a `Create` it is true for
every such argument equal to the created username up to case. -/
theorem C8_userExists (username : String) (s : Store) (hw : noWildcard username) :
    (UserExists none username s).2 = none ∧
      ((UserExists none username s).1 = true ↔
        ∃ u ∈ s.users, eqFold u.Username username) ∧
      ((¬ ∃ u ∈ s.users, eqFold u.Username username) →
        UserExists none username s = (false, none)) ∧
      (∀ (now : Int) (u u' : User) (s' : Store), Create now none u s = .ok (u', s') →
        eqFold u'.Username username → (UserExists none username s').1 = true) := by
  have key : ∀ t : Store, (UserExists none username t).1 = true ↔
      ∃ u ∈ t.users, eqFold u.Username username := by
    intro t
    simp only [UserExists, gt_iff_lt, decide_eq_true_eq, List.length_pos, ne_eq,
      List.filter_eq_nil_iff, not_forall, Classical.not_imp, not_not]
    constructor
    · rintro ⟨x, hx, hm⟩
      exact ⟨x, hx, (usernameLike_noWildcard username hw x).mp hm⟩
    · rintro ⟨x, hx, hm⟩
      exact ⟨x, hx, (usernameLike_noWildcard username hw x).mpr hm⟩
  refine ⟨rfl, key s, ?_, ?_⟩
  · intro hno
    have h1 : (UserExists none username s).1 = false := by
      cases hb : (UserExists none username s).1 with
      | false => rfl
      | true => exact absurd ((key s).mp hb) hno
    exact Prod.ext h1 rfl
  · intro now u u' s' hc he
    obtain ⟨_, hs', _⟩ := Create_ok now u u' s s' hc
    rw [key s']
    subst hs'
    exact ⟨u', by simp, he⟩

/-- Witness of C8 (amended): `bob` is found under the name `BOB`. -/
theorem C8_witness :
    noWildcard "BOB" ∧ UserExists none "BOB" bobStore = (true, none) ∧
      ((UserExists none "BOB" bobStore).1 = true ↔
        ∃ u ∈ bobStore.users, eqFold u.Username "BOB") :=
  ⟨by decide, by decide, (C8_userExists "BOB" bobStore (by decide)).2.1⟩

/-- C9 (as stated, refuted): (1) with `bob` stored, a user created under the
name `b_b` gets key 2, and `GetUserByUsername("b_b")` returns `bob` while
`GetUserById(2)` returns the created user; (2) with `Alice` stored, a user
created under the name `alice` gets key 2, and `GetUserByUsername("alice")`
returns `Alice`; (3) `GetUserByUsername("%")` finds `bob` although no stored
username equals `%` up to letter case. -/
theorem C9_counterexample :
    (Create 7 none (userRow 0 "b_b") bobStore =
        .ok ({ userRow 2 "b_b" with CreatedAt := 7 },
          usersOnly [userRow 1 "bob", { userRow 2 "b_b" with CreatedAt := 7 }]) ∧
      GetUserById none 2 (usersOnly [userRow 1 "bob", { userRow 2 "b_b" with CreatedAt := 7 }]) =
        .ok { userRow 2 "b_b" with CreatedAt := 7 } ∧
      GetUserByUsername none "b_b"
          (usersOnly [userRow 1 "bob", { userRow 2 "b_b" with CreatedAt := 7 }]) =
        .ok (userRow 1 "bob")) ∧
    (Create 7 none (userRow 0 "alice") aliceStore =
        .ok ({ userRow 2 "alice" with CreatedAt := 7 },
          usersOnly [userRow 1 "Alice", { userRow 2 "alice" with CreatedAt := 7 }]) ∧
      GetUserByUsername none "alice"
          (usersOnly [userRow 1 "Alice", { userRow 2 "alice" with CreatedAt := 7 }]) =
        .ok (userRow 1 "Alice")) ∧
    (GetUserByUsername none "%" bobStore = .ok (userRow 1 "bob") ∧
      ¬ ∃ x ∈ bobStore.users, eqFold x.Username "%") := by
  decide

/-- C9 (amended): for a user created with `Create` whose username holds no
wildcard of `LIKE` and equals no previously stored username up to ASCII letter
case, `GetUserById(u.ID)` and `GetUserByUsername(u.Username)` both return the
created record; and in every store, for an argument without wildcard,
`GetUserByUsername` fails with NotFound exactly when no stored username equals
the argument up to ASCII letter case, and a record it returns is a stored one
whose username equals the argument up to case. -/
theorem C9_lookup_created (now : Int) (u u' : User) (s s' : Store)
    (hc : Create now none u s = .ok (u', s'))
    (hw : noWildcard u'.Username)
    (hfresh : ∀ x ∈ s.users, ¬ eqFold x.Username u'.Username) :
    GetUserById none u'.ID s' = .ok u' ∧
      GetUserByUsername none u'.Username s' = .ok u' ∧
      (∀ (t : Store) (name : String), noWildcard name →
        (GetUserByUsername none name t = .error .notFound ↔
          ¬ ∃ x ∈ t.users, eqFold x.Username name)) ∧
      (∀ (t : Store) (name : String) (v : User), noWildcard name →
        GetUserByUsername none name t = .ok v → v ∈ t.users ∧ eqFold v.Username name) := by
  obtain ⟨_, hs', hnew⟩ := Create_ok now u u' s s' hc
  subst hs'
  refine ⟨?_, ?_, ?_, ?_⟩
  · have h0 : s.users.filter (fun x => decide (x.ID = u'.ID)) = [] := by
      rw [List.filter_eq_nil_iff]
      intro x hx
      simpa using (hnew x hx).1
    simp only [GetUserById, List.filter_append, h0, List.nil_append]
    simp [List.filter, first_singleton]
  · have h0 : s.users.filter (usernameLike u'.Username) = [] := by
      rw [List.filter_eq_nil_iff]
      intro x hx hm
      exact hfresh x hx ((usernameLike_noWildcard _ hw x).mp hm)
    have h1 : usernameLike u'.Username u' = true :=
      (usernameLike_noWildcard _ hw u').mpr rfl
    simp only [GetUserByUsername, List.filter_append, h0, List.nil_append]
    simp [List.filter, h1, first_singleton]
  · intro t name hn
    simp only [GetUserByUsername]
    rw [first_eq_notFound, List.filter_eq_nil_iff]
    constructor
    · rintro h ⟨x, hx, he⟩
      exact h x hx ((usernameLike_noWildcard name hn x).mpr he)
    · intro h x hx hm
      exact h ⟨x, hx, (usernameLike_noWildcard name hn x).mp hm⟩
  · intro t name v hn hv
    simp only [GetUserByUsername] at hv
    have hm := first_mem _ v hv
    rw [List.mem_filter] at hm
    exact ⟨hm.1, (usernameLike_noWildcard name hn v).mp hm.2⟩

/-- Witness of C9 (amended): `carol` is created in `bobStore`. -/
theorem C9_witness :
    Create 7 none (userRow 0 "carol") bobStore =
        .ok ({ userRow 2 "carol" with CreatedAt := 7 },
          usersOnly [userRow 1 "bob", { userRow 2 "carol" with CreatedAt := 7 }]) ∧
      GetUserByUsername none "carol"
          (usersOnly [userRow 1 "bob", { userRow 2 "carol" with CreatedAt := 7 }]) =
        .ok { userRow 2 "carol" with CreatedAt := 7 } :=
  ⟨by decide,
    (C9_lookup_created 7 (userRow 0 "carol") { userRow 2 "carol" with CreatedAt := 7 } bobStore
      (usersOnly [userRow 1 "bob", { userRow 2 "carol" with CreatedAt := 7 }])
      (by decide) (by decide) (by decide)).2.1⟩

/-! ## Likes -/

/-- The count query finds a row exactly when a `likes` row of the pair exists
whose user is stored. -/
theorem countLikes_eq_zero (s : Store) (gistId userId : Nat) :
    countLikes s gistId userId = 0 ↔
      ¬ ∃ x ∈ s.users, ∃ l ∈ s.likes, l.gist_id = gistId ∧ l.user_id = x.ID ∧ l.user_id = userId := by
  unfold countLikes
  rw [List.sum_eq_zero_iff]
  simp only [List.mem_map, forall_exists_index, and_imp, forall_apply_eq_imp_iff₂,
    List.length_eq_zero, List.filter_eq_nil_iff, decide_eq_true_eq, not_exists, not_and]

/-- C10: in a store that satisfies the foreign key of `likes` on `users`,
`HasLiked(u, g)` (its query executed) returns true if and only if a `likes`
row with `user_id = u.ID` and `gist_id = g.id` exists, never with an error; it
returns `(false, nil)` when no such row exists, whatever other rows the table
holds, and `(true, nil)` once the like of `g` by a stored user `u` is
recorded. -/
theorem C10_hasLiked (u : User) (g : Gist) (s : Store) (hFK : s.likesFK) :
    ((HasLiked u g none none s).1 = true ↔
        ∃ l ∈ s.likes, l.user_id = u.ID ∧ l.gist_id = g.id) ∧
      (HasLiked u g none none s).2 = none ∧
      ((¬ ∃ l ∈ s.likes, l.user_id = u.ID ∧ l.gist_id = g.id) →
        HasLiked u g none none s = (false, none)) ∧
      (u ∈ s.users → HasLiked u g none none (recordLike u g s) = (true, none)) := by
  have hz : ∀ t : Store, countLikes t g.id u.ID = 0 → HasLiked u g none none t = (false, none) := by
    intro t h
    simp [HasLiked, h]
  have hp : ∀ t : Store, countLikes t g.id u.ID ≠ 0 → HasLiked u g none none t = (true, none) := by
    intro t h
    simp [HasLiked, h]
  have hcount : countLikes s g.id u.ID = 0 ↔
      ¬ ∃ l ∈ s.likes, l.user_id = u.ID ∧ l.gist_id = g.id := by
    rw [countLikes_eq_zero]
    constructor
    · rintro h ⟨l, hl, h1, h2⟩
      obtain ⟨x, hx, hid⟩ := hFK l hl
      exact h ⟨x, hx, l, hl, h2, hid.symm, h1⟩
    · rintro h ⟨x, _, l, hl, h1, _, h3⟩
      exact h ⟨l, hl, h3, h1⟩
  refine ⟨?_, ?_, ?_, ?_⟩
  · by_cases hc : countLikes s g.id u.ID = 0
    · rw [hz s hc]
      simpa using hcount.mp hc
    · rw [hp s hc]
      have := not_not.mp (fun h => hc (hcount.mpr h))
      simpa using this
  · by_cases hc : countLikes s g.id u.ID = 0
    · rw [hz s hc]
    · rw [hp s hc]
  · intro hno
    exact hz s (hcount.mpr hno)
  · intro hu
    apply hp
    rw [Ne, countLikes_eq_zero, not_not]
    exact ⟨u, hu, ⟨u.ID, g.id⟩, by simp [recordLike], rfl, rfl, rfl⟩

/-- Witness of C10 on `likeAndForkStore`: user 1 has liked gist 1, user 2 has
not, and has once the like is recorded. -/
theorem C10_witness :
    likeAndForkStore.likesFK ∧
      HasLiked (userRow 1 "u") ⟨1, 2, none, 1, 1, 0, ""⟩ none none likeAndForkStore = (true, none) ∧
      HasLiked (userRow 2 "v") ⟨1, 2, none, 1, 1, 0, ""⟩ none none likeAndForkStore = (false, none) ∧
      HasLiked (userRow 2 "v") ⟨1, 2, none, 1, 1, 0, ""⟩ none none
          (recordLike (userRow 2 "v") ⟨1, 2, none, 1, 1, 0, ""⟩ likeAndForkStore) = (true, none) ∧
      ((HasLiked (userRow 1 "u") ⟨1, 2, none, 1, 1, 0, ""⟩ none none likeAndForkStore).1 = true ↔
        ∃ l ∈ likeAndForkStore.likes,
          l.user_id = (userRow 1 "u").ID ∧ l.gist_id = (⟨1, 2, none, 1, 1, 0, ""⟩ : Gist).id) :=
  ⟨by decide, by decide, by decide, by decide,
    (C10_hasLiked (userRow 1 "u") ⟨1, 2, none, 1, 1, 0, ""⟩ likeAndForkStore (by decide)).1⟩

end Opengist
